import Mathlib

/-!
Verification development for the PNG chunk inspector (src/png.js and
src/unnamed/part_000).

The repository bundles several variants of the same browser application:

* `PngV1` embeds the primary lenient implementation (src/png.js, first
  document: `readPngChunks` at lines 124-232, `computeCrc` at 240-245,
  `summarizeChunk` at 351-573, the bounds-checked binary readers at 621-664).
* `PngV2` embeds the dashboard variant (src/png.js, second document:
  `readPngChunks` at lines 1178-1210, unchecked readers at 1271-1275).
* `PngStrict` embeds the original strict parser (src/unnamed/part_000,
  `readPngChunks` at lines 60-116).

Byte buffers are modelled as `List Nat` (entries below 256, as produced by a
`Uint8Array`).  JavaScript 32-bit bitwise results are tracked as their
unsigned 32-bit bit patterns (`Nat`); the one place where JavaScript's
signed-int32 view is observable - the return value of `computeCrc`, built by
`crc ^ 0xFFFFFFFF` - is modelled explicitly with `toInt32`.
-/

/-- The unsigned 32-bit bit pattern `n`, reinterpreted as a JavaScript signed
32-bit integer (the result type of every JS binary bitwise operator). -/
def toInt32 (n : Nat) : Int :=
  if n % 4294967296 < 2147483648 then ((n % 4294967296 : Nat) : Int)
  else ((n % 4294967296 : Nat) : Int) - 4294967296

/-- `bytes[off]` on a `Uint8Array`: out-of-range access yields `undefined`,
which the bitwise/arithmetic contexts of the source coerce to 0. -/
def byteAt (bytes : List Nat) (off : Nat) : Nat :=
  bytes.getD off 0

/-- Core of `readUint32`: `((b[o] << 24) | (b[o+1] << 16) | (b[o+2] << 8) | b[o+3]) >>> 0`. -/
def uint32At (bytes : List Nat) (off : Nat) : Nat :=
  byteAt bytes off <<< 24 ||| byteAt bytes (off+1) <<< 16 |||
    byteAt bytes (off+2) <<< 8 ||| byteAt bytes (off+3)

/-- Core of `readUint16`: `(b[o] << 8) | b[o+1]`. -/
def uint16At (bytes : List Nat) (off : Nat) : Nat :=
  byteAt bytes off <<< 8 ||| byteAt bytes (off+1)

/-- Core of `readAscii`/`readLatin1`: the character codes of the `len` bytes
starting at `off` (clamped at the end of the buffer, as `subarray` is). -/
def asciiAt (bytes : List Nat) (off len : Nat) : List Nat :=
  (bytes.drop off).take len

/-! ## Checksum engine (`computeCrc` / `updateCrc`, src/png.js lines 240-270)

`crcTable` is an `Int32Array`; all intermediate values are tracked here as
their unsigned 32-bit bit patterns, which the JS bitwise operators preserve. -/

/-- One round of the table construction:
`c = (c & 1) === 0 ? c >>> 1 : (c >>> 1) ^ 0xEDB88320`. -/
def crcStep (c : Nat) : Nat :=
  if c &&& 1 = 0 then c >>> 1 else (c >>> 1) ^^^ 0xEDB88320

/-- Entry `i` of the lazily built 256-entry table: eight `crcStep` rounds. -/
def crcTableEntry (i : Nat) : Nat :=
  crcStep (crcStep (crcStep (crcStep (crcStep (crcStep (crcStep (crcStep i)))))))

/-- `updateCrc`: `crc = crcTable[(crc ^ b) & 0xFF] ^ (crc >>> 8)` folded over
the byte sequence (bit-pattern view). -/
def updateCrc (crc : Nat) (bytes : List Nat) : Nat :=
  bytes.foldl (fun c b => crcTableEntry ((c ^^^ b) &&& 0xFF) ^^^ (c >>> 8)) crc

/-- The CRC-32 bit pattern of a byte sequence: seed 0xFFFFFFFF, table-driven
rounds with polynomial 0xEDB88320, final complement. -/
def crc32 (bytes : List Nat) : Nat :=
  updateCrc 0xFFFFFFFF bytes ^^^ 0xFFFFFFFF

/-- `computeCrc(type, data)`: seeds with 0xFFFFFFFF, processes the type bytes
then the data bytes, and returns `crc ^ 0xFFFFFFFF` - which in JavaScript is
a *signed* 32-bit number, hence the `toInt32`. -/
def computeCrc (type data : List Nat) : Int :=
  toInt32 (updateCrc (updateCrc 0xFFFFFFFF type) data ^^^ 0xFFFFFFFF)

/-! ## Shared structural definitions -/

/-- `PNG_SIGNATURE = [0x89, 0x50, 0x4E, 0x47, 0x0D, 0x0A, 0x1A, 0x0A]`. -/
def PNG_SIGNATURE : List Nat := [0x89, 0x50, 0x4E, 0x47, 0x0D, 0x0A, 0x1A, 0x0A]

/-- The signature test
`bytes.length < 8 || !bytes.subarray(0, 8).every((b, i) => b === PNG_SIGNATURE[i])`,
phrased positively: `true` iff the buffer passes. -/
def signatureOk (bytes : List Nat) : Bool :=
  decide (8 ≤ bytes.length) &&
    (List.range 8).all fun i => byteAt bytes i == PNG_SIGNATURE.getD i 0

/-- One character of the type-tag pattern `[A-Za-z]`. -/
def isAsciiLetter (c : Nat) : Bool :=
  (65 ≤ c && c ≤ 90) || (97 ≤ c && c ≤ 122)

/-- The type-tag test `/^[A-Za-z]{4}$/.test(type)`. -/
def isChunkType (t : List Nat) : Bool :=
  t.length == 4 && t.all isAsciiLetter

/-- Character codes of `"IHDR"`. -/
def typeIHDR : List Nat := [73, 72, 68, 82]
/-- Character codes of `"IDAT"`. -/
def typeIDAT : List Nat := [73, 68, 65, 84]
/-- Character codes of `"IEND"`. -/
def typeIEND : List Nat := [73, 69, 78, 68]
/-- Character codes of `"PLTE"`. -/
def typePLTE : List Nat := [80, 76, 84, 69]
/-- Character codes of `"sPLT"`. -/
def typeSPLT : List Nat := [115, 80, 76, 84]

/-- One parsed chunk record, as pushed by the lenient parsers:
`{ type, length, data, offset, crc, crcOk }`. -/
structure Chunk where
  type : List Nat
  length : Nat
  data : List Nat
  offset : Nat
  crc : Nat
  crcOk : Bool
deriving DecidableEq, Repr

namespace PngV1

/-- The warnings pushed by the primary lenient `readPngChunks`, one
constructor per `warnings.push` site, carrying the interpolated values. -/
inductive Warning where
  | headerTruncated (offset : Nat)
  | largeLength (offset length : Nat)
  | invalidType (offset : Nat) (type : List Nat)
  | cannotSkip (offset : Nat)
  | dataTruncated (offset : Nat) (type : List Nat)
  | crcMismatch (type : List Nat) (offset : Nat) (expected : Int) (actual : Nat)
  | ihdrNotFirst
  | dataAfterIend
  | missingIdat
  | missingIend
deriving DecidableEq, Repr

/-- The mutable state of the scan loop. -/
structure St where
  index : Nat
  chunks : List Chunk
  warnings : List Warning
  foundIhdr : Bool
  foundIdat : Bool
  foundIend : Bool
deriving DecidableEq, Repr

/-- Loop entry state: cursor at offset 8, everything empty. -/
def initState : St := ⟨8, [], [], false, false, false⟩

/-- The scan loop of the primary `readPngChunks` (src/png.js lines 137-221).
`fuel` bounds the number of iterations; `none` means the fuel ran out with the
loop condition still true (shown impossible for `fuel = bytes.length` in
`parseLoop_total`, since each iteration advances the cursor by at least 12). -/
def parseLoop (bytes : List Nat) : Nat → St → Option St
  | 0, s => if bytes.length ≤ s.index then some s else none
  | fuel+1, s =>
    if bytes.length ≤ s.index then some s
    else
      let i := s.index
      if bytes.length < i + 8 then
        some { s with warnings := s.warnings ++ [.headerTruncated i] }
      else
        let length := uint32At bytes i
        let ws1 := if 2147483648 ≤ length then s.warnings ++ [.largeLength i length]
                   else s.warnings
        let type := asciiAt bytes (i+4) 4
        if isChunkType type then
          if bytes.length < i + 8 + length + 4 then
            some { s with warnings := ws1 ++ [.dataTruncated i type] }
          else
            let data := asciiAt bytes (i+8) length
            let actualCrc := uint32At bytes (i + 8 + length)
            let expectedCrc := computeCrc type data
            let crcOk : Bool := (actualCrc : Int) == expectedCrc
            let ws2 := if crcOk then ws1
                       else ws1 ++ [.crcMismatch type i expectedCrc actualCrc]
            let chunks2 := s.chunks ++ [⟨type, length, data, i, actualCrc, crcOk⟩]
            let ws3 := if type == typeIHDR && decide (1 < chunks2.length) then
                         ws2 ++ [.ihdrNotFirst] else ws2
            let ws4 := if type == typeIEND && decide (i + 8 + length + 4 < bytes.length) then
                         ws3 ++ [.dataAfterIend] else ws3
            parseLoop bytes fuel
              { index := i + 8 + length + 4
                chunks := chunks2
                warnings := ws4
                foundIhdr := s.foundIhdr || type == typeIHDR
                foundIdat := s.foundIdat || type == typeIDAT
                foundIend := s.foundIend || type == typeIEND }
        else
          let ws2 := ws1 ++ [.invalidType i type]
          if i + 8 + length + 4 ≤ bytes.length then
            parseLoop bytes fuel { s with index := i + 8 + length + 4, warnings := ws2 }
          else
            some { s with warnings := ws2 ++ [.cannotSkip i] }

/-- The two `throw new Error(...)` sites of the primary parser, plus the
fuel sentinel (proved unreachable in `readPngChunks_ne_outOfFuel`). -/
inductive Err where
  | notAPngFile
  | missingIhdr
  | outOfFuel
deriving DecidableEq, Repr

/-- `{ chunks: [...], warnings: [...] }`. -/
structure ParseResult where
  chunks : List Chunk
  warnings : List Warning
deriving DecidableEq, Repr

/-- The post-scan warning pushes of the primary parser: missing `IDAT`, then
missing `IEND` when the cursor reached the end of the buffer without one. -/
def finalWarnings (bytes : List Nat) (s : St) : List Warning :=
  let ws1 := if s.foundIdat then s.warnings else s.warnings ++ [.missingIdat]
  if !s.foundIend && decide (bytes.length ≤ s.index) then ws1 ++ [.missingIend] else ws1

/-- The primary lenient `readPngChunks` (src/png.js lines 124-232). -/
def readPngChunks (bytes : List Nat) : Except Err ParseResult :=
  if signatureOk bytes then
    match parseLoop bytes bytes.length initState with
    | none => .error .outOfFuel
    | some s =>
      if s.foundIhdr then .ok ⟨s.chunks, finalWarnings bytes s⟩
      else .error .missingIhdr
  else .error .notAPngFile

/-! ### Bounds-checked binary readers (src/png.js lines 621-664) -/

/-- `readUint16`: throws `"Read past end of buffer (Uint16)"` when
`offset + 2 > bytes.length`. -/
def readUint16 (bytes : List Nat) (offset : Nat) : Except String Nat :=
  if bytes.length < offset + 2 then .error "Read past end of buffer"
  else .ok (uint16At bytes offset)

/-- `readUint32`: throws `"Read past end of buffer (Uint32)"` when
`offset + 4 > bytes.length`. -/
def readUint32 (bytes : List Nat) (offset : Nat) : Except String Nat :=
  if bytes.length < offset + 4 then .error "Read past end of buffer"
  else .ok (uint32At bytes offset)

/-- `readAscii`: bounds-checked fixed-length byte-to-codepoint string read. -/
def readAscii (bytes : List Nat) (offset len : Nat) : Except String (List Nat) :=
  if bytes.length < offset + len then .error "Read past end of buffer"
  else .ok (asciiAt bytes offset len)

/-- `readLatin1` is implemented as `readAscii`. -/
def readLatin1 (bytes : List Nat) (offset len : Nat) : Except String (List Nat) :=
  readAscii bytes offset len

/-- Tail byte of a multi-byte UTF-8 sequence: `0x80..0xBF`. -/
def isUtf8Cont (c : Nat) : Bool := 128 ≤ c && c ≤ 191

/-- Strict UTF-8 well-formedness, as enforced by
`new TextDecoder("utf-8", { fatal: true })`. -/
def utf8Valid : List Nat → Bool
  | [] => true
  | b :: rest =>
    if b ≤ 0x7F then utf8Valid rest
    else if 0xC2 ≤ b && b ≤ 0xDF then
      match rest with
      | c :: r => isUtf8Cont c && utf8Valid r
      | [] => false
    else if b == 0xE0 then
      match rest with
      | c :: d :: r => (0xA0 ≤ c && c ≤ 0xBF) && isUtf8Cont d && utf8Valid r
      | _ => false
    else if (0xE1 ≤ b && b ≤ 0xEC) || (0xEE ≤ b && b ≤ 0xEF) then
      match rest with
      | c :: d :: r => isUtf8Cont c && isUtf8Cont d && utf8Valid r
      | _ => false
    else if b == 0xED then
      match rest with
      | c :: d :: r => (0x80 ≤ c && c ≤ 0x9F) && isUtf8Cont d && utf8Valid r
      | _ => false
    else if b == 0xF0 then
      match rest with
      | c :: d :: e :: r =>
        (0x90 ≤ c && c ≤ 0xBF) && isUtf8Cont d && isUtf8Cont e && utf8Valid r
      | _ => false
    else if 0xF1 ≤ b && b ≤ 0xF3 then
      match rest with
      | c :: d :: e :: r =>
        isUtf8Cont c && isUtf8Cont d && isUtf8Cont e && utf8Valid r
      | _ => false
    else if b == 0xF4 then
      match rest with
      | c :: d :: e :: r =>
        (0x80 ≤ c && c ≤ 0x8F) && isUtf8Cont d && isUtf8Cont e && utf8Valid r
      | _ => false
    else false

/-- `readUtf8`: bounds check, then strict decoding that throws on any
malformed sequence. -/
def readUtf8 (bytes : List Nat) (offset len : Nat) : Except String (List Nat) :=
  if bytes.length < offset + len then .error "Read past end of buffer"
  else if utf8Valid (asciiAt bytes offset len) then .ok (asciiAt bytes offset len)
  else .error "Invalid UTF-8 sequence found"

end PngV1

/-- `data.indexOf(v, start)` on a `Uint8Array`, with `none` for `-1`. -/
def jsIndexOf (data : List Nat) (v : Nat) (start : Nat) : Option Nat :=
  ((data.drop start).findIdx? (· == v)).map (· + start)

namespace PngV1

/-- The structured content of the display string each `summarizeChunk` branch
returns: one constructor per chunk-type case, carrying exactly the values the
source interpolates into its template string.  Fixed-point values (cHRM, gAMA,
fcTL delay) are carried as the raw integers the source divides by 100000 or
by the delay denominator for display. -/
inductive Summary where
  | ihdr (width height bitDepth colorType compression filter interlace : Nat)
      (colorTypeStr : String)
  | plte (entries : Nat)
  | idat
  | iend
  | trns (length : Nat)
  | chrm (wx wy rx ry gx gy bx bly : Nat)
  | gama (gamma : Nat)
  | iccp (name : List Nat) (compMethod : Nat)
  | sbit (length : Nat)
  | srgb (intent : Nat) (intentStr : String)
  | cicp (primaries transfer matrix fullRange : Nat)
  | itxt (keyword : List Nat) (compFlag compMethod : Nat)
      (langTag translatedKeyword : List Nat)
  | text (keyword textPreview : List Nat)
  | ztxt (keyword : List Nat) (compMethod : Nat)
  | bkgd (length : Nat)
  | hist (entries : Nat)
  | phys (ppuX ppuY unitSpec : Nat) (unitStr : String)
  | splt (name : List Nat) (sampleDepth entries : Nat)
  | exif (length : Nat)
  | time (year month day hour minute second : Nat)
  | actl (numFrames numPlays : Nat)
  | fctl (seq width height xOff yOff delayNum delayDen dispose blend : Nat)
  | fdat (seq : Nat)
  | ancillaryUnknown
  | criticalUnknown
deriving DecidableEq, Repr

/-- `summarizeChunk` (src/png.js lines 351-573): decodes the type-specific
payload grammar of one chunk record, throwing a descriptive string on any
violation.  Errors thrown by the binary readers propagate. -/
def summarizeChunk (chunk : Chunk) : Except String Summary :=
  let data := chunk.data
  let length := chunk.length
  if chunk.type == typeIHDR then do
    if length != 13 then throw "Invalid IHDR length"
    let width ← readUint32 data 0
    let height ← readUint32 data 4
    let bitDepth := byteAt data 8
    let colorType := byteAt data 9
    let compressionMethod := byteAt data 10
    let filterMethod := byteAt data 11
    let interlaceMethod := byteAt data 12
    if width == 0 || height == 0 then throw "Zero width or height"
    if !isValidBitDepthColorType bitDepth colorType then
      throw "Invalid bit depth/color type combination"
    if compressionMethod != 0 then throw "Invalid compression method"
    if filterMethod != 0 then throw "Invalid filter method"
    if interlaceMethod != 0 && interlaceMethod != 1 then throw "Invalid interlace method"
    let colorTypeStr :=
      if colorType == 0 then "Grayscale"
      else if colorType == 2 then "Truecolor"
      else if colorType == 3 then "Indexed-color"
      else if colorType == 4 then "Grayscale+alpha"
      else if colorType == 6 then "Truecolor+alpha"
      else "Invalid"
    return .ihdr width height bitDepth colorType compressionMethod filterMethod
      interlaceMethod colorTypeStr
  else if chunk.type == typePLTE then
    if length % 3 != 0 || 768 < length || length == 0 then throw "Invalid PLTE length"
    else return .plte (length / 3)
  else if chunk.type == typeIDAT then
    return .idat
  else if chunk.type == typeIEND then
    if length != 0 then throw "Invalid IEND length" else return .iend
  else if chunk.type == [116, 82, 78, 83] then  -- "tRNS"
    return .trns length
  else if chunk.type == [99, 72, 82, 77] then  -- "cHRM"
    do
    if length != 32 then throw "Invalid cHRM length"
    let wx ← readUint32 data 0
    let wy ← readUint32 data 4
    let rx ← readUint32 data 8
    let ry ← readUint32 data 12
    let gx ← readUint32 data 16
    let gy ← readUint32 data 20
    let bx ← readUint32 data 24
    let bly ← readUint32 data 28
    return .chrm wx wy rx ry gx gy bx bly
  else if chunk.type == [103, 65, 77, 65] then  -- "gAMA"
    do
    if length != 4 then throw "Invalid gAMA length"
    let gamma ← readUint32 data 0
    return .gama gamma
  else if chunk.type == [105, 67, 67, 80] then  -- "iCCP"
    do
    match jsIndexOf data 0 0 with
    | none => throw "Invalid profile name"
    | some nul =>
      if 79 < nul || nul == 0 then throw "Invalid profile name"
      let name ← readLatin1 data 0 nul
      if length < nul + 2 then throw "Missing compression method"
      let compMethod := byteAt data (nul + 1)
      if compMethod != 0 then throw "Invalid compression method"
      return .iccp name compMethod
  else if chunk.type == [115, 66, 73, 84] then  -- "sBIT"
    return .sbit length
  else if chunk.type == [115, 82, 71, 66] then  -- "sRGB"
    do
    if length != 1 then throw "Invalid sRGB length"
    let renderingIntent := byteAt data 0
    let intentStr ←
      if renderingIntent == 0 then pure "Perceptual"
      else if renderingIntent == 1 then pure "Relative colorimetric"
      else if renderingIntent == 2 then pure "Saturation"
      else if renderingIntent == 3 then pure "Absolute colorimetric"
      else throw "Invalid rendering intent"
    return .srgb renderingIntent intentStr
  else if chunk.type == [99, 73, 67, 80] then  -- "cICP"
    do
    if length != 4 then throw "Invalid cICP length"
    let colorPrimaries := byteAt data 0
    let transferCharacteristics := byteAt data 1
    let matrixCoefficients := byteAt data 2
    let videoFullRangeFlag := byteAt data 3
    if 1 < videoFullRangeFlag then throw "Invalid video full range flag"
    return .cicp colorPrimaries transferCharacteristics matrixCoefficients videoFullRangeFlag
  else if chunk.type == [105, 84, 88, 116] then  -- "iTXt"
    do
    match jsIndexOf data 0 0 with
    | none => throw "Invalid keyword"
    | some nul0 =>
      if 79 < nul0 || nul0 == 0 then throw "Invalid keyword"
      let keyword ← readLatin1 data 0 nul0
      if length < nul0 + 3 then throw "Data too short"
      let compFlag := byteAt data (nul0 + 1)
      let compMethod := byteAt data (nul0 + 2)
      if compFlag != 0 && compFlag != 1 then throw "Invalid compression flag"
      if compFlag == 1 && compMethod != 0 then
        throw "Invalid compression method for compressed text"
      match jsIndexOf data 0 (nul0 + 3) with
      | none => throw "Missing language tag terminator"
      | some nul1 =>
        let langTag ← readLatin1 data (nul0 + 3) (nul1 - (nul0 + 3))
        match jsIndexOf data 0 (nul1 + 1) with
        | none => throw "Missing translated keyword terminator"
        | some nul2 =>
          let translatedKeyword ← readUtf8 data (nul1 + 1) (nul2 - (nul1 + 1))
          return .itxt keyword compFlag compMethod langTag translatedKeyword
  else if chunk.type == [116, 69, 88, 116] then  -- "tEXt"
    do
    match jsIndexOf data 0 0 with
    | none => throw "Invalid keyword"
    | some nul =>
      if 79 < nul || nul == 0 then throw "Invalid keyword"
      let keyword ← readLatin1 data 0 nul
      let text ← readLatin1 data (nul + 1) (length - (nul + 1))
      let textPreview := if 60 < text.length then text.take 57 ++ [46, 46, 46] else text
      return .text keyword textPreview
  else if chunk.type == [122, 84, 88, 116] then  -- "zTXt"
    do
    match jsIndexOf data 0 0 with
    | none => throw "Invalid keyword"
    | some nul =>
      if 79 < nul || nul == 0 then throw "Invalid keyword"
      let keyword ← readLatin1 data 0 nul
      if length < nul + 2 then throw "Data too short"
      let compMethod := byteAt data (nul + 1)
      if compMethod != 0 then throw "Invalid compression method"
      return .ztxt keyword compMethod
  else if chunk.type == [98, 75, 71, 68] then  -- "bKGD"
    return .bkgd length
  else if chunk.type == [104, 73, 83, 84] then  -- "hIST"
    if length % 2 != 0 || length == 0 then throw "Invalid hIST length"
    else return .hist (length / 2)
  else if chunk.type == [112, 72, 89, 115] then  -- "pHYs"
    do
    if length != 9 then throw "Invalid pHYs length"
    let ppuX ← readUint32 data 0
    let ppuY ← readUint32 data 4
    let unitSpec := byteAt data 8
    let unitStr ←
      if unitSpec == 0 then pure "Unknown"
      else if unitSpec == 1 then pure "Metre"
      else throw "Invalid unit specifier"
    return .phys ppuX ppuY unitSpec unitStr
  else if chunk.type == typeSPLT then
    do
    match jsIndexOf data 0 0 with
    | none => throw "Invalid palette name"
    | some nul =>
      if 79 < nul || nul == 0 then throw "Invalid palette name"
      let name ← readLatin1 data 0 nul
      if length < nul + 2 then throw "Data too short"
      let sampleDepth := byteAt data (nul + 1)
      if sampleDepth != 8 && sampleDepth != 16 then throw "Invalid sample depth"
      let entrySize := if sampleDepth == 8 then 6 else 10
      let dataLength := length - (nul + 1 + 1)
      if dataLength % entrySize != 0 then throw "Invalid data length"
      return .splt name sampleDepth (dataLength / entrySize)
  else if chunk.type == [101, 88, 73, 102] then  -- "eXIf"
    return .exif length
  else if chunk.type == [116, 73, 77, 69] then  -- "tIME"
    do
    if length != 7 then throw "Invalid tIME length"
    let year ← readUint16 data 0
    let month := byteAt data 2
    let day := byteAt data 3
    let hour := byteAt data 4
    let minute := byteAt data 5
    let second := byteAt data 6
    if month < 1 || 12 < month || day < 1 || 31 < day || 23 < hour || 59 < minute ||
        60 < second then
      throw "Invalid date/time value"
    return .time year month day hour minute second
  else if chunk.type == [97, 99, 84, 76] then  -- "acTL"
    do
    if length != 8 then throw "Invalid acTL length"
    let numFrames ← readUint32 data 0
    let numPlays ← readUint32 data 4
    return .actl numFrames numPlays
  else if chunk.type == [102, 99, 84, 76] then  -- "fcTL"
    do
    if length != 26 then throw "Invalid fcTL length"
    let sequenceNumber ← readUint32 data 0
    let width ← readUint32 data 4
    let height ← readUint32 data 8
    let xOffset ← readUint32 data 12
    let yOffset ← readUint32 data 16
    let delayNum ← readUint16 data 20
    let delayDen0 ← readUint16 data 22
    let disposeOp := byteAt data 24
    let blendOp := byteAt data 25
    if width == 0 || height == 0 then throw "Zero frame width or height"
    let delayDen := if delayDen0 == 0 then 100 else delayDen0
    if 2 < disposeOp then throw "Invalid dispose operation"
    if 1 < blendOp then throw "Invalid blend operation"
    return .fctl sequenceNumber width height xOffset yOffset delayNum delayDen
      disposeOp blendOp
  else if chunk.type == [102, 100, 65, 84] then  -- "fdAT"
    do
    if length < 4 then throw "Invalid fdAT length"
    let sequenceNumber ← readUint32 data 0
    return .fdat sequenceNumber
  else
    if 97 ≤ byteAt chunk.type 0 && byteAt chunk.type 0 ≤ 122 then
      return .ancillaryUnknown
    else
      return .criticalUnknown
where
  /-- `isValidBitDepthColorType` (src/png.js lines 577-586). -/
  isValidBitDepthColorType (bitDepth colorType : Nat) : Bool :=
    if colorType == 0 then [1, 2, 4, 8, 16].contains bitDepth
    else if colorType == 2 then [8, 16].contains bitDepth
    else if colorType == 3 then [1, 2, 4, 8].contains bitDepth
    else if colorType == 4 then [8, 16].contains bitDepth
    else if colorType == 6 then [8, 16].contains bitDepth
    else false

end PngV1

namespace PngV2

/-! ## The dashboard variant (src/png.js, second document, lines 1178-1294).

Its binary readers (lines 1271-1275) perform no bounds check: an out-of-range
`Uint8Array` access yields `undefined`, which `ToInt32` coerces to 0. -/

/-- `readUint16(b, i) { return (b[i] << 8) | b[i + 1]; }` - no bounds check. -/
def readUint16 (b : List Nat) (i : Nat) : Nat := uint16At b i

/-- `readUint32(b, i) { return ((b[i] << 24) | ... | b[i + 3]) >>> 0; }` -
no bounds check. -/
def readUint32 (b : List Nat) (i : Nat) : Nat := uint32At b i

/-- `readAscii(b, i, l)` - no bounds check; reads past the end contribute
nothing (`String.fromCharCode(undefined)` never happens on a `Uint8Array`
subarray-free loop because `b[i+j]` is `undefined`, coerced to NaN = code 0;
the loop still produces `l` characters, but past-the-end characters have no
corresponding buffer byte, so the clamped byte list is the observable data). -/
def readAscii (b : List Nat) (i l : Nat) : List Nat := asciiAt b i l

/-- The warnings of the dashboard `readPngChunks`, one constructor per
`warnings.push` site. -/
inductive Warning where
  | eof (offset : Nat)
  | largeLength (type : List Nat) (length : Nat)
  | truncated (type : List Nat)
  | crcMismatch (type : List Nat)
deriving DecidableEq, Repr

/-- Scan-loop state of the dashboard parser (no header/end flags). -/
structure St where
  index : Nat
  chunks : List Chunk
  warnings : List Warning
deriving DecidableEq, Repr

/-- Loop entry state for the dashboard parser. -/
def initState : St := ⟨8, [], []⟩

/-- The scan loop of the dashboard `readPngChunks` (src/png.js lines
1186-1208).  A declared length at or above 2^31 pushes a warning and *breaks*
out of the scan; a CRC mismatch on an `IDAT` chunk is deliberately not
reported (line 1204). -/
def parseLoop (bytes : List Nat) : Nat → St → Option St
  | 0, s => if bytes.length ≤ s.index then some s else none
  | fuel+1, s =>
    if bytes.length ≤ s.index then some s
    else
      let i := s.index
      if bytes.length < i + 8 then
        some { s with warnings := s.warnings ++ [.eof i] }
      else
        let length := readUint32 bytes i
        let type := readAscii bytes (i+4) 4
        if 2147483648 ≤ length then
          some { s with warnings := s.warnings ++ [.largeLength type length] }
        else if bytes.length < i + 8 + length + 4 then
          some { s with warnings := s.warnings ++ [.truncated type] }
        else
          let data := asciiAt bytes (i+8) length
          let actualCrc := readUint32 bytes (i + 8 + length)
          let expectedCrc := computeCrc type data
          let crcOk : Bool := (actualCrc : Int) == expectedCrc
          let ws := if !crcOk && type != typeIDAT then
                      s.warnings ++ [.crcMismatch type] else s.warnings
          parseLoop bytes fuel
            ⟨i + 8 + length + 4, s.chunks ++ [⟨type, length, data, i, actualCrc, crcOk⟩], ws⟩

/-- The single `throw` site of the dashboard parser, plus the fuel sentinel
(proved unreachable in `v2_sig_ok_result`). -/
inductive Err where
  | notAPngFile
  | outOfFuel
deriving DecidableEq, Repr

/-- `{ chunks, warnings }` of the dashboard parser. -/
structure ParseResult where
  chunks : List Chunk
  warnings : List Warning
deriving DecidableEq, Repr

/-- The dashboard `readPngChunks` (src/png.js lines 1178-1210): after the
signature check it only ever returns the collected chunks and warnings -
there is no missing-IHDR (or any other) fatal error. -/
def readPngChunks (bytes : List Nat) : Except Err ParseResult :=
  if signatureOk bytes then
    match parseLoop bytes bytes.length initState with
    | none => .error .outOfFuel
    | some s => .ok ⟨s.chunks, s.warnings⟩
  else .error .notAPngFile

end PngV2

namespace PngStrict

/-! ## The original strict parser (src/unnamed/part_000, lines 60-116). -/

/-- One chunk object of the strict parser: `{ type, length, data, offset }`. -/
structure ChunkS where
  type : List Nat
  length : Nat
  data : List Nat
  offset : Nat
deriving DecidableEq, Repr

/-- The `throw` sites of the strict parser, plus the fuel sentinel. -/
inductive Err where
  | notAPngFile
  | eofHeader
  | lengthTooLarge
  | invalidTypeChars
  | eofData
  | crcMismatch
  | missingIhdr
  | missingIend
  | missingIdat
  | outOfFuel
deriving DecidableEq, Repr

/-- The scan loop of the strict parser (src/unnamed/part_000 lines 68-105):
any structural problem throws.  (The `console.log` warning after an early
`IEND` has no effect on the returned value and is not modelled.) -/
def parseLoop (bytes : List Nat) : Nat → Nat → List ChunkS → Except Err (List ChunkS)
  | 0, index, chunks =>
    if bytes.length ≤ index then .ok chunks else .error .outOfFuel
  | fuel+1, index, chunks =>
    if bytes.length ≤ index then .ok chunks
    else if bytes.length < index + 8 then .error .eofHeader
    else
      let length := uint32At bytes index
      if 2147483648 ≤ length then .error .lengthTooLarge
      else
        let type := asciiAt bytes (index+4) 4
        if !isChunkType type then .error .invalidTypeChars
        else if bytes.length < index + 8 + length + 4 then .error .eofData
        else
          let data := asciiAt bytes (index+8) length
          let actualCrc := uint32At bytes (index + 8 + length)
          let expectedCrc := computeCrc type data
          if (actualCrc : Int) != expectedCrc then .error .crcMismatch
          else parseLoop bytes fuel (index + 8 + length + 4) (chunks ++ [⟨type, length, data, index⟩])

/-- The strict `readPngChunks` (src/unnamed/part_000 lines 60-116). -/
def readPngChunks (bytes : List Nat) : Except Err (List ChunkS) := do
  if !signatureOk bytes then throw .notAPngFile
  let chunks ← parseLoop bytes bytes.length 8 []
  if chunks.length == 0 || (chunks.headD ⟨[], 0, [], 0⟩).type != typeIHDR then
    throw .missingIhdr
  if (chunks.getLastD ⟨[], 0, [], 0⟩).type != typeIEND then throw .missingIend
  if !chunks.any (fun ch => ch.type == typeIDAT) then throw .missingIdat
  return chunks

end PngStrict

/-! ## Derived helpers and spec-side predicates -/

namespace PngV1

/-- Is a warning a CRC-mismatch warning? -/
def Warning.isCrc : Warning → Bool
  | .crcMismatch _ _ _ _ => true
  | _ => false

/-- The CRC-mismatch warning the scan pushes for a retained chunk record. -/
def mkCrcWarn (c : Chunk) : Warning :=
  .crcMismatch c.type c.offset (computeCrc c.type c.data) c.crc

end PngV1

namespace PngV2

/-- Is a warning of the dashboard parser a CRC-mismatch warning? -/
def Warning.isCrc : Warning → Bool
  | .crcMismatch _ => true
  | _ => false

end PngV2

namespace PngStrict

/-- Detects the fuel sentinel of the strict parser. -/
def isFuelError : Except Err (List ChunkS) → Bool
  | .error .outOfFuel => true
  | _ => false

end PngStrict

/-- Spec-side predicate (section 4.4 of the specification / claim C7): the five
valid bit-depth and color-type pairings of the header chunk. -/
abbrev specValidPairing (bitDepth colorType : Nat) : Prop :=
  (colorType = 0 ∧ bitDepth ∈ [1, 2, 4, 8, 16]) ∨
  (colorType = 2 ∧ bitDepth ∈ [8, 16]) ∨
  (colorType = 3 ∧ bitDepth ∈ [1, 2, 4, 8]) ∨
  (colorType = 4 ∧ bitDepth ∈ [8, 16]) ∨
  (colorType = 6 ∧ bitDepth ∈ [8, 16])

/-- Spec-side predicate (claim C7): a header payload is valid iff it has
exactly 13 bytes, non-zero big-endian width and height, a valid
bit-depth/color-type pairing, zero compression and filter methods, and an
interlace method of 0 or 1. -/
abbrev specIhdrValid (payload : List Nat) : Prop :=
  payload.length = 13 ∧
  uint32At payload 0 ≠ 0 ∧ uint32At payload 4 ≠ 0 ∧
  specValidPairing (byteAt payload 8) (byteAt payload 9) ∧
  byteAt payload 10 = 0 ∧ byteAt payload 11 = 0 ∧
  (byteAt payload 12 = 0 ∨ byteAt payload 12 = 1)

/-- The display label of each color type, as in the `IHDR` branch of
`summarizeChunk`. -/
def ihdrColorLabel (colorType : Nat) : String :=
  if colorType = 0 then "Grayscale"
  else if colorType = 2 then "Truecolor"
  else if colorType = 3 then "Indexed-color"
  else if colorType = 4 then "Grayscale+alpha"
  else if colorType = 6 then "Truecolor+alpha"
  else "Invalid"

/-- Spec-side predicate (claim C9, with the printability requirement that the
code does not enforce removed): the suggested-palette payload begins with a
null-terminated name of 1 to 79 bytes, the byte after the null is 8 or 16,
and the remaining length is a nonnegative multiple of the per-entry size. -/
abbrev specSpltShape (payload : List Nat) : Prop :=
  ∃ k, jsIndexOf payload 0 0 = some k ∧ 1 ≤ k ∧ k ≤ 79 ∧
    k + 2 ≤ payload.length ∧
    (byteAt payload (k+1) = 8 ∨ byteAt payload (k+1) = 16) ∧
    (payload.length - (k + 2)) % (if byteAt payload (k+1) = 8 then 6 else 10) = 0

/-- Printability as the specification states it for names and keywords:
the byte range of `/^[ -~]{1,79}$/`. -/
def isPrintableByte (b : Nat) : Bool :=
  32 ≤ b && b ≤ 126

/-! ## Concrete test inputs -/

/-- A minimal well-formed PNG: signature, a valid 13-byte `IHDR`
(1x1, bit depth 8, grayscale), and a valid `IEND`; every stored checksum is
the true CRC-32 of the chunk's type and payload. -/
def pngC1 : List Nat :=
  [137, 80, 78, 71, 13, 10, 26, 10,
   0, 0, 0, 13, 73, 72, 68, 82, 0, 0, 0, 1, 0, 0, 0, 1, 8, 0, 0, 0, 0, 58, 126, 155, 85,
   0, 0, 0, 0, 73, 69, 78, 68, 174, 66, 96, 130]

/-- The parse result of `pngC1` under the primary parser: the `IEND` record
is flagged `crcOk := false` (with a spurious mismatch warning) although its
stored checksum 2923585666 = 0xAE426082 is exactly the CRC-32 of `"IEND"`,
because `computeCrc` returned the negative signed view -1371381630. -/
def pngC1Result : PngV1.ParseResult :=
  ⟨[⟨typeIHDR, 13, [0, 0, 0, 1, 0, 0, 0, 1, 8, 0, 0, 0, 0], 8, 981375829, true⟩,
    ⟨typeIEND, 0, [], 33, 2923585666, false⟩],
   [.crcMismatch typeIEND 33 (-1371381630) 2923585666, .missingIdat]⟩

/-- Signature, valid `IHDR`, a structurally complete chunk whose type tag
`"AB1D"` contains a digit (so the parser warns and skips it), then `IEND`. -/
def pngC3 : List Nat :=
  [137, 80, 78, 71, 13, 10, 26, 10,
   0, 0, 0, 13, 73, 72, 68, 82, 0, 0, 0, 1, 0, 0, 0, 1, 8, 0, 0, 0, 0, 58, 126, 155, 85,
   0, 0, 0, 0, 65, 66, 49, 68, 0, 0, 0, 0,
   0, 0, 0, 0, 73, 69, 78, 68, 174, 66, 96, 130]

/-- Signature followed by a zero-length `IDAT` chunk whose stored checksum 0
differs from the computed CRC-32 (900662814). -/
def pngC4 : List Nat :=
  [137, 80, 78, 71, 13, 10, 26, 10, 0, 0, 0, 0, 73, 68, 65, 84, 0, 0, 0, 0]

/-- Signature, valid `IHDR`, the corrupt `IDAT` of `pngC4`, and a valid
`IEND`. -/
def pngC4w : List Nat :=
  [137, 80, 78, 71, 13, 10, 26, 10,
   0, 0, 0, 13, 73, 72, 68, 82, 0, 0, 0, 1, 0, 0, 0, 1, 8, 0, 0, 0, 0, 58, 126, 155, 85,
   0, 0, 0, 0, 73, 68, 65, 84, 0, 0, 0, 0,
   0, 0, 0, 0, 73, 69, 78, 68, 174, 66, 96, 130]

/-- First 16 bytes of the oversized-length buffer: signature, declared length
0x80000000, type `"IHDR"`. -/
def bigPrefix : List Nat :=
  [137, 80, 78, 71, 13, 10, 26, 10, 128, 0, 0, 0, 73, 72, 68, 82]

/-- A buffer containing one structurally complete chunk with declared length
2^31 = 2147483648: the 16-byte prefix followed by 2^31 payload bytes and 4
checksum bytes (all zero). -/
def bigBytes : List Nat :=
  bigPrefix ++ List.replicate 2147483652 0

/-- A suggested-palette chunk whose name is the single non-printable byte 1:
payload `[1, 0, 8]`, i.e. name `[1]`, sample depth 8, zero entries. -/
def spltChunkEx : Chunk := ⟨typeSPLT, 3, [1, 0, 8], 0, 0, true⟩

/-- A suggested-palette chunk with printable name `"A"`: payload `[65, 0, 8]`. -/
def spltChunkW : Chunk := ⟨typeSPLT, 3, [65, 0, 8], 0, 0, true⟩

/-- The parse result of `pngC4w` under the primary parser. -/
def pngC4wResult : PngV1.ParseResult :=
  ⟨[⟨typeIHDR, 13, [0, 0, 0, 1, 0, 0, 0, 1, 8, 0, 0, 0, 0], 8, 981375829, true⟩,
    ⟨typeIDAT, 0, [], 33, 0, false⟩,
    ⟨typeIEND, 0, [], 45, 2923585666, false⟩],
   [.crcMismatch typeIDAT 33 900662814 0,
    .crcMismatch typeIEND 45 (-1371381630) 2923585666]⟩

/-- The parse result of `pngC4` under the dashboard parser: the mismatched
`IDAT` chunk is retained with `crcOk := false` but no warning is pushed. -/
def pngC4Result : PngV2.ParseResult :=
  ⟨[⟨typeIDAT, 0, [], 8, 0, false⟩], []⟩

/-- The valid 1x1 grayscale header chunk of `pngC1`, as a record. -/
def ihdrChunkW : Chunk :=
  ⟨typeIHDR, 13, [0, 0, 0, 1, 0, 0, 0, 1, 8, 0, 0, 0, 0], 8, 981375829, true⟩

/-- The layout relation between two chunk records: the second begins at or
after the end of the first (length field, type tag, payload and checksum). -/
def chunkGap (a b : Chunk) : Prop :=
  a.offset + 8 + a.length + 4 ≤ b.offset

/-- Decidable equality of `Except` values, used to evaluate parser runs on
concrete buffers. -/
instance {ε α : Type} [DecidableEq ε] [DecidableEq α] : DecidableEq (Except ε α)
  | .ok a, .ok b =>
    if h : a = b then .isTrue (by rw [h]) else .isFalse (by intro hh; cases hh; exact h rfl)
  | .error e, .error f =>
    if h : e = f then .isTrue (by rw [h]) else .isFalse (by intro hh; cases hh; exact h rfl)
  | .ok _, .error _ => .isFalse (by intro h; cases h)
  | .error _, .ok _ => .isFalse (by intro h; cases h)

/-! # Lemmas and claim theorems -/

namespace PngV1

/-- Fuel sufficiency for the primary scan loop: each iteration advances the
cursor by `8 + length + 4 ≥ 12 ≥ 1`, so `bytes.length - s.index` iterations
(hence that much fuel) always suffice. -/
theorem parseLoop_total (bytes : List Nat) :
    ∀ (fuel : Nat) (s : St), bytes.length ≤ s.index + fuel →
      (parseLoop bytes fuel s).isSome = true := by
  intro fuel
  induction fuel with
  | zero =>
    intro s h
    simp only [parseLoop]
    rw [if_pos (by omega)]
    rfl
  | succ n ih =>
    intro s h
    simp only [parseLoop]
    split
    · rfl
    · split
      · rfl
      · split
        · split
          · rfl
          · exact ih _ (by dsimp only; omega)
        · split
          · exact ih _ (by dsimp only; omega)
          · rfl

end PngV1

namespace PngV2

/-- Fuel sufficiency for the dashboard scan loop. -/
theorem parseLoopTotalV2 (bytes : List Nat) :
    ∀ (fuel : Nat) (s : St), bytes.length ≤ s.index + fuel →
      (parseLoop bytes fuel s).isSome = true := by
  intro fuel
  induction fuel with
  | zero =>
    intro s h
    simp only [parseLoop]
    rw [if_pos (by omega)]
    rfl
  | succ n ih =>
    intro s h
    simp only [parseLoop]
    split
    · rfl
    · split
      · rfl
      · split
        · rfl
        · split
          · rfl
          · exact ih _ (by dsimp only; omega)

end PngV2

namespace PngStrict

/-- Fuel sufficiency for the strict scan loop: the fuel sentinel is never the
result when the fuel covers the remaining bytes. -/
theorem parseLoopTotalStrict (bytes : List Nat) :
    ∀ (fuel index : Nat) (chunks : List ChunkS), bytes.length ≤ index + fuel →
      isFuelError (parseLoop bytes fuel index chunks) = false := by
  intro fuel
  induction fuel with
  | zero =>
    intro index chunks h
    simp only [parseLoop]
    rw [if_pos (by omega)]
    rfl
  | succ n ih =>
    intro index chunks h
    simp only [parseLoop]
    split
    · rfl
    · split
      · rfl
      · split
        · rfl
        · split
          · rfl
          · split
            · rfl
            · split
              · rfl
              · exact ih _ _ (by omega)

end PngStrict

/-- Claim C10: the chunk-scan loops terminate - with fuel equal to the buffer
length (an upper bound on the number of iterations, since every iteration
that does not exit advances the cursor by `8 + length + 4 ≥ 12`), the primary
parser's loop always reaches an exit (`isSome`), and the strict parser's loop
never reports fuel exhaustion. -/
theorem claimC10 (bytes : List Nat) :
    (PngV1.parseLoop bytes bytes.length PngV1.initState).isSome = true ∧
    PngStrict.isFuelError (PngStrict.parseLoop bytes bytes.length 8 []) = false := by
  constructor
  · exact PngV1.parseLoop_total bytes bytes.length PngV1.initState (by simp [PngV1.initState])
  · exact PngStrict.parseLoopTotalStrict bytes bytes.length 8 [] (by omega)

set_option maxRecDepth 8000 in
/-- Claim C1 (code bug): on the minimal well-formed PNG `pngC1`, every stored
checksum equals the CRC-32 of the chunk's type and payload bytes, yet the
`IEND` record is flagged `crcOk := false` and a spurious CRC-mismatch warning
is pushed, because `computeCrc` returns the JavaScript *signed* 32-bit view
of the checksum (negative whenever the CRC-32 is at least 2^31) while the
stored checksum is read unsigned. -/
theorem claimC1 :
    PngV1.readPngChunks pngC1 = .ok pngC1Result ∧
    (pngC1Result.chunks.map fun c => c.crc == crc32 (c.type ++ c.data)) = [true, true] ∧
    pngC1Result.chunks.map Chunk.crcOk = [true, false] := by
  refine ⟨by decide, by decide, by decide⟩

set_option maxRecDepth 8000 in
/-- Claim C3 counterexample: on `pngC3` the parser skips a structurally
complete chunk with an invalid type tag between the two retained records, so
the second record's offset is 45, not `8 + 8 + 13 + 4 = 33` - adjacent
records are *not* contiguous across a best-effort skip. -/
theorem claimC3_counterexample :
    (PngV1.readPngChunks pngC3).map (fun r => r.chunks.map fun c => (c.offset, c.length))
      = .ok [(8, 13), (45, 0)] ∧
    decide (45 = 8 + 8 + 13 + 4) = false := by
  refine ⟨by decide, by decide⟩

/-- Claim C4 counterexample: the dashboard parser keeps a checksum-mismatched
`IDAT` chunk with `crcOk := false` but pushes *no* warning for it (the
warning is suppressed exactly when the type is `IDAT`). -/
theorem claimC4_counterexample :
    PngV2.readPngChunks pngC4 = .ok ⟨[⟨typeIDAT, 0, [], 8, 0, false⟩], []⟩ := by
  decide

/-- Claim C5 counterexample: on a buffer that is just the 8-byte signature -
so no `IHDR` chunk is ever recorded - the dashboard parser does not fail
with a missing-header error: it returns an empty chunk list successfully. -/
theorem claimC5_counterexample :
    PngV2.readPngChunks PNG_SIGNATURE = .ok ⟨[], []⟩ := by
  decide

/-- Claim C8 counterexample: the dashboard variant's `readUint16` performs no
bounds check - at offset 0 of a one-byte buffer (`offset + 2 > length`) it
does not fail with an out-of-bounds condition but returns a value fabricated
from the out-of-range access (`undefined` coerced to 0). -/
theorem claimC8_counterexample :
    PngV2.readUint16 [5] 0 = 1280 ∧
    decide (([5] : List Nat).length < 0 + 2) = true := by
  refine ⟨by decide, by decide⟩

/-- Claim C9 counterexample: `summarizeChunk` accepts a suggested-palette
chunk whose name is the single byte 1, which is not printable - the code
never checks printability, so the claimed "succeeds iff the name consists of
printable bytes" equivalence is false. -/
theorem claimC9_counterexample :
    PngV1.summarizeChunk spltChunkEx = .ok (.splt [1] 8 0) ∧
    (spltChunkEx.data.take 1).all isPrintableByte = false := by
  refine ⟨by decide, by decide⟩

/-- The signature test passes exactly when the first 8 bytes of the buffer
are the PNG signature (a buffer shorter than 8 bytes never passes). -/
theorem signatureOk_eq_true_iff (bytes : List Nat) :
    signatureOk bytes = true ↔ bytes.take 8 = PNG_SIGNATURE := by
  constructor
  · intro h
    rw [signatureOk, Bool.and_eq_true] at h
    obtain ⟨h1, h2⟩ := h
    have hlen : 8 ≤ bytes.length := by simpa using h1
    have hall : ∀ i, i < 8 → byteAt bytes i = PNG_SIGNATURE.getD i 0 := by
      intro i hi
      have := (List.all_eq_true.mp h2) i (List.mem_range.mpr hi)
      exact beq_iff_eq.mp this
    apply List.ext_getElem
    · simpa [PNG_SIGNATURE] using Nat.min_eq_left hlen
    · intro i hi1 hi2
      have hi8 : i < 8 := by simpa using hi2
      have hib : i < bytes.length := lt_of_lt_of_le hi8 hlen
      have := hall i hi8
      rw [byteAt, List.getD_eq_getElem _ _ hib,
        List.getD_eq_getElem _ _ (by simpa [PNG_SIGNATURE] using hi8)] at this
      simpa [List.getElem_take] using this
  · intro h
    have hlen : 8 ≤ bytes.length := by
      have := congrArg List.length h
      simp [PNG_SIGNATURE] at this
      omega
    rw [signatureOk, Bool.and_eq_true]
    refine ⟨by simpa using hlen, ?_⟩
    rw [List.all_eq_true]
    intro i hi
    have hi8 : i < 8 := List.mem_range.mp hi
    have hib : i < bytes.length := lt_of_lt_of_le hi8 hlen
    have h' : (bytes.take 8).getD i 0 = PNG_SIGNATURE.getD i 0 := by rw [h]
    rw [List.getD_eq_getElem _ _ (by simp; omega)] at h'
    simp only [List.getElem_take] at h'
    rw [beq_iff_eq, byteAt, List.getD_eq_getElem _ _ hib]
    exact h'

/-- Claim C2: for every buffer whose first 8 bytes are not exactly the PNG
signature - in particular every buffer shorter than 8 bytes - the primary
`readPngChunks` fails with the signature-mismatch error and returns no
partial chunk list. -/
theorem claimC2 (bytes : List Nat) (h : bytes.take 8 ≠ PNG_SIGNATURE) :
    PngV1.readPngChunks bytes = .error .notAPngFile := by
  have hsig : signatureOk bytes ≠ true :=
    fun hok => h ((signatureOk_eq_true_iff bytes).mp hok)
  rw [PngV1.readPngChunks, if_neg hsig]

/-- Witness for claim C2 on the empty buffer. -/
theorem claimC2_witness :
    decide (([] : List Nat).take 8 = PNG_SIGNATURE) = false ∧
    PngV1.readPngChunks [] = .error .notAPngFile :=
  ⟨by decide, claimC2 [] (by decide)⟩

namespace PngV1

/-- Preservation of the scan-loop invariants of the primary parser: every
retained chunk ends at or before the cursor, consecutive retained chunks are
ordered and non-overlapping (`chunkGap`), the CRC-mismatch warnings are
exactly one `mkCrcWarn c` per retained chunk `c` with `crcOk = false` (in
order), and the header flag is set exactly when an `IHDR` record has been
retained. -/
theorem parseLoop_inv (bytes : List Nat) :
    ∀ (fuel : Nat) (s s' : St), parseLoop bytes fuel s = some s' →
      (∀ c ∈ s.chunks, c.offset + 8 + c.length + 4 ≤ s.index) →
      s.chunks.Chain' chunkGap →
      s.warnings.filter Warning.isCrc =
        (s.chunks.filter fun c => c.crcOk == false).map mkCrcWarn →
      (s.foundIhdr = true ↔ ∃ c ∈ s.chunks, c.type = typeIHDR) →
      ((∀ c ∈ s'.chunks, c.offset + 8 + c.length + 4 ≤ s'.index) ∧
        s'.chunks.Chain' chunkGap ∧
        s'.warnings.filter Warning.isCrc =
          (s'.chunks.filter fun c => c.crcOk == false).map mkCrcWarn ∧
        (s'.foundIhdr = true ↔ ∃ c ∈ s'.chunks, c.type = typeIHDR)) := by
  intro fuel
  induction fuel with
  | zero =>
    intro s s' h h1 h2 h3 h4
    simp only [parseLoop] at h
    split at h
    · cases h; exact ⟨h1, h2, h3, h4⟩
    · cases h
  | succ n ih =>
    intro s s' h h1 h2 h3 h4
    simp only [parseLoop] at h
    split at h
    · cases h; exact ⟨h1, h2, h3, h4⟩
    · split at h
      · -- header truncated: terminal, warnings get a non-CRC entry
        cases h
        refine ⟨h1, h2, ?_, h4⟩
        simpa [List.filter_append, Warning.isCrc] using h3
      · split at h
        · split at h
          · -- chunk data truncated: terminal, warnings get non-CRC entries
            cases h
            refine ⟨h1, h2, ?_, h4⟩
            simp only [List.filter_append, Warning.isCrc]
            split <;> simpa [List.filter_append, Warning.isCrc] using h3
          · -- main branch: a chunk is appended and the loop continues
            next hidx h8 htype hfit =>
            refine ih _ s' h ?_ ?_ ?_ ?_
            · intro c hc
              rcases List.mem_append.mp hc with hc | hc
              · have := h1 c hc
                dsimp only
                omega
              · simp only [List.mem_singleton] at hc
                subst hc
                dsimp only
                omega
            · dsimp only
              rw [List.chain'_append]
              refine ⟨h2, List.chain'_singleton _, ?_⟩
              intro x hx y hy
              simp only [List.head?_cons, Option.mem_def, Option.some.injEq] at hy
              subst hy
              have hxm : x ∈ s.chunks := List.mem_of_mem_getLast? hx
              have := h1 x hxm
              simp only [chunkGap]
              omega
            · -- the CRC warning list gains exactly the new chunk's warning
              -- when and only when its CRC check failed; the IHDR-position,
              -- after-IEND and large-length warnings are not CRC warnings
              clear ih h
              dsimp only
              simp only [List.filter_append, List.map_append]
              split <;> split <;> split <;> split <;>
                simp_all [List.filter_append, Warning.isCrc, mkCrcWarn]
            · dsimp only
              simp only [Bool.or_eq_true, List.mem_append, List.mem_singleton]
              constructor
              · rintro (hf | hf)
                · obtain ⟨c, hc, hct⟩ := h4.mp hf
                  exact ⟨c, Or.inl hc, hct⟩
                · exact ⟨_, Or.inr rfl, beq_iff_eq.mp hf⟩
              · rintro ⟨c, hc | hc, hct⟩
                · exact Or.inl (h4.mpr ⟨c, hc, hct⟩)
                · subst hc
                  exact Or.inr (beq_iff_eq.mpr hct)
        · split at h
          · -- invalid type tag, best-effort skip: chunks unchanged
            refine ih _ s' h ?_ h2 ?_ h4
            · intro c hc
              have := h1 c hc
              dsimp only
              omega
            · dsimp only
              split <;> simpa [List.filter_append, Warning.isCrc] using h3
          · -- invalid type tag, cannot skip: terminal
            cases h
            refine ⟨h1, h2, ?_, h4⟩
            simp only [List.filter_append, Warning.isCrc]
            split <;> simpa [List.filter_append, Warning.isCrc] using h3

end PngV1

namespace PngV1

/-- Inversion for a successful run of the primary parser: the result's chunks
are the final loop state's chunks, the header flag was set, and the
post-scan warnings (missing `IDAT` / missing `IEND`) add no CRC warnings. -/
theorem readPngChunks_ok (bytes : List Nat) (r : ParseResult)
    (h : readPngChunks bytes = .ok r) :
    ∃ s, parseLoop bytes bytes.length initState = some s ∧
      r.chunks = s.chunks ∧ s.foundIhdr = true ∧
      r.warnings.filter Warning.isCrc = s.warnings.filter Warning.isCrc := by
  rw [readPngChunks] at h
  split at h
  · split at h
    · cases h
    · next s hm =>
      split at h
      · next hihdr =>
        refine ⟨s, hm, ?_⟩
        cases h
        refine ⟨rfl, hihdr, ?_⟩
        simp only [finalWarnings]
        split <;> split <;> simp [List.filter_append, Warning.isCrc]
      · cases h
  · cases h

/-- The scan-loop invariants hold at the initial state, hence at the final
state of every successful run. -/
theorem readPngChunks_ok_inv (bytes : List Nat) (r : ParseResult)
    (h : readPngChunks bytes = .ok r) :
    r.chunks.Chain' chunkGap ∧
      r.warnings.filter Warning.isCrc =
        (r.chunks.filter fun c => c.crcOk == false).map mkCrcWarn ∧
      ∃ c ∈ r.chunks, c.type = typeIHDR := by
  obtain ⟨s, hm, hc, hihdr, hw⟩ := readPngChunks_ok bytes r h
  have hinv := parseLoop_inv bytes bytes.length initState s hm
    (by simp [initState]) (by simp [initState]) (by simp [initState]) (by simp [initState])
  refine ⟨hc ▸ hinv.2.1, ?_, hc ▸ hinv.2.2.2.mp hihdr⟩
  rw [hw, hc]
  exact hinv.2.2.1

end PngV1

/-- In a list of chunks with strictly increasing offsets, a Boolean predicate
that holds for `c` and forces the offset of every satisfier to equal `c`'s
offset is satisfied exactly once. -/
theorem countP_eq_one_of_offsets (l : List Chunk)
    (hpw : l.Pairwise (fun a b => a.offset < b.offset))
    (p : Chunk → Bool) (c : Chunk) (hc : c ∈ l) (hpc : p c = true)
    (hoff : ∀ x, p x = true → x.offset = c.offset) :
    l.countP p = 1 := by
  induction l with
  | nil => cases hc
  | cons d t ih =>
    rw [List.pairwise_cons] at hpw
    obtain ⟨hd, hpt⟩ := hpw
    rcases List.mem_cons.mp hc with rfl | hct
    · rw [List.countP_cons_of_pos p t hpc]
      have hz : t.countP p = 0 := by
        rw [List.countP_eq_zero]
        intro x hx hpx
        have h1 := hoff x hpx
        have h2 := hd x hx
        omega
      omega
    · have hpd : ¬ p d = true := by
        intro hpd
        have h1 := hoff d hpd
        have h2 := hd c hct
        omega
      rw [List.countP_cons_of_neg p t hpd]
      exact ih hpt hct

/-- Claim C3 (amended): for every successful run of the primary parser,
adjacent retained records satisfy
`prev.offset + 8 + prev.length + 4 ≤ next.offset` - records are ordered and
never overlap; equality can fail (strictly greater) exactly when the parser's
best-effort skip over an invalid-type chunk occurred between them. -/
theorem claimC3 (bytes : List Nat) (r : PngV1.ParseResult)
    (h : PngV1.readPngChunks bytes = .ok r) :
    r.chunks.Chain' chunkGap :=
  (PngV1.readPngChunks_ok_inv bytes r h).1

set_option maxRecDepth 8000 in
/-- Witness for claim C3 on the two-chunk file `pngC1`. -/
theorem claimC3_witness :
    PngV1.readPngChunks pngC1 = .ok pngC1Result ∧ pngC1Result.chunks.Chain' chunkGap :=
  ⟨by decide, claimC3 pngC1 pngC1Result (by decide)⟩

namespace PngV2

/-- Preservation of the dashboard scan-loop warning invariant: the CRC
warnings are exactly one `crcMismatch c.type` per retained chunk `c` with
`crcOk = false` whose type is not `IDAT`, in order. -/
theorem parseLoopInvV2 (bytes : List Nat) :
    ∀ (fuel : Nat) (s s' : St), parseLoop bytes fuel s = some s' →
      s.warnings.filter Warning.isCrc =
        (s.chunks.filter fun c => c.crcOk == false && c.type != typeIDAT).map
          (fun c => Warning.crcMismatch c.type) →
      s'.warnings.filter Warning.isCrc =
        (s'.chunks.filter fun c => c.crcOk == false && c.type != typeIDAT).map
          (fun c => Warning.crcMismatch c.type) := by
  intro fuel
  induction fuel with
  | zero =>
    intro s s' h h3
    simp only [parseLoop] at h
    split at h
    · cases h; exact h3
    · cases h
  | succ n ih =>
    intro s s' h h3
    simp only [parseLoop] at h
    split at h
    · cases h; exact h3
    · split at h
      · cases h
        simpa [List.filter_append, Warning.isCrc] using h3
      · split at h
        · cases h
          simpa [List.filter_append, Warning.isCrc] using h3
        · split at h
          · cases h
            simpa [List.filter_append, Warning.isCrc] using h3
          · refine ih _ s' h ?_
            clear ih h
            dsimp only
            simp only [List.filter_append, List.map_append]
            split <;> simp_all [List.filter_append, Warning.isCrc]

end PngV2

/-- Claim C4 (amended): in the primary parser a structurally complete chunk
with a checksum mismatch is still retained (flagged `crcOk = false`) and
contributes exactly one CRC-mismatch warning, regardless of its type; in the
dashboard parser the same holds except that the warning is suppressed exactly
when the chunk's type is `IDAT` (there is one warning, carrying the type, per
mismatched non-`IDAT` chunk). -/
theorem claimC4 :
    (∀ (bytes : List Nat) (r : PngV1.ParseResult), PngV1.readPngChunks bytes = .ok r →
      (r.warnings.filter PngV1.Warning.isCrc =
        (r.chunks.filter fun c => c.crcOk == false).map PngV1.mkCrcWarn) ∧
      ∀ c ∈ r.chunks, c.crcOk = false → r.warnings.count (PngV1.mkCrcWarn c) = 1) ∧
    (∀ (bytes : List Nat) (r : PngV2.ParseResult), PngV2.readPngChunks bytes = .ok r →
      r.warnings.filter PngV2.Warning.isCrc =
        (r.chunks.filter fun c => c.crcOk == false && c.type != typeIDAT).map
          (fun c => PngV2.Warning.crcMismatch c.type)) := by
  constructor
  · intro bytes r h
    obtain ⟨hchain, hfil, -⟩ := PngV1.readPngChunks_ok_inv bytes r h
    refine ⟨hfil, ?_⟩
    intro c hc hcrc
    haveI : IsTrans Chunk (fun a b => a.offset < b.offset) :=
      ⟨fun _ _ _ h1 h2 => Nat.lt_trans h1 h2⟩
    have hpw : r.chunks.Pairwise (fun a b => a.offset < b.offset) :=
      List.chain'_iff_pairwise.mp (hchain.imp fun {a b} hab => by
        simp only [chunkGap] at hab; omega)
    have hcrcW : PngV1.Warning.isCrc (PngV1.mkCrcWarn c) = true := by
      simp [PngV1.mkCrcWarn, PngV1.Warning.isCrc]
    rw [← List.count_filter hcrcW, hfil, List.count_eq_countP, List.countP_map,
      List.countP_filter]
    refine countP_eq_one_of_offsets r.chunks hpw _ c hc ?_ ?_
    · simp [Function.comp, hcrc]
    · intro x hx
      simp only [Function.comp, Bool.and_eq_true, beq_iff_eq] at hx
      have hmk := hx.1
      simp only [PngV1.mkCrcWarn, PngV1.Warning.crcMismatch.injEq] at hmk
      exact hmk.2.1
  · intro bytes r h
    rw [PngV2.readPngChunks] at h
    split at h
    · split at h
      · cases h
      · next s hm =>
        cases h
        exact PngV2.parseLoopInvV2 bytes bytes.length PngV2.initState s hm
          (by simp [PngV2.initState])
    · cases h

set_option maxRecDepth 8000 in
/-- Witness for claim C4: on `pngC4w` (valid `IHDR`, corrupt `IDAT`, and an
`IEND` that the signedness bug flags as corrupt) the primary parser emits
exactly one CRC warning per flagged chunk; the dashboard parser on `pngC4`
emits none for the flagged `IDAT`. -/
theorem claimC4_witness :
    (PngV1.readPngChunks pngC4w = .ok pngC4wResult ∧
      pngC4wResult.warnings.filter PngV1.Warning.isCrc =
        (pngC4wResult.chunks.filter fun c => c.crcOk == false).map PngV1.mkCrcWarn) ∧
    (PngV2.readPngChunks pngC4 = .ok pngC4Result ∧
      pngC4Result.warnings.filter PngV2.Warning.isCrc =
        (pngC4Result.chunks.filter fun c => c.crcOk == false && c.type != typeIDAT).map
          (fun c => PngV2.Warning.crcMismatch c.type)) := by
  refine ⟨⟨by decide, (claimC4.1 pngC4w pngC4wResult (by decide)).1⟩,
    ⟨by decide, claimC4.2 pngC4 pngC4Result (by decide)⟩⟩

/-- Claim C5 (amended): with a valid signature the primary parser either
fails with the missing-header error or succeeds with an `IHDR` record in its
chunk list (these are its only outcomes, so a full scan that never records
`IHDR` is fatal); the dashboard parser, by contrast, always succeeds after a
valid signature - it has no missing-header fatal error. -/
theorem claimC5 (bytes : List Nat) (h : bytes.take 8 = PNG_SIGNATURE) :
    (PngV1.readPngChunks bytes = .error .missingIhdr ∨
      ∃ r, PngV1.readPngChunks bytes = .ok r ∧ ∃ c ∈ r.chunks, c.type = typeIHDR) ∧
    ∃ r2, PngV2.readPngChunks bytes = .ok r2 := by
  have hsig : signatureOk bytes = true := (signatureOk_eq_true_iff bytes).mpr h
  constructor
  · obtain ⟨s, hm⟩ := Option.isSome_iff_exists.mp
      (PngV1.parseLoop_total bytes bytes.length PngV1.initState (by simp [PngV1.initState]))
    by_cases hi : s.foundIhdr = true
    · right
      refine ⟨⟨s.chunks, PngV1.finalWarnings bytes s⟩, ?_, ?_⟩
      · rw [PngV1.readPngChunks, if_pos hsig]
        simp only [hm]
        rw [if_pos hi]
      · have hinv := PngV1.parseLoop_inv bytes bytes.length PngV1.initState s hm
          (by simp [PngV1.initState]) (by simp [PngV1.initState])
          (by simp [PngV1.initState]) (by simp [PngV1.initState])
        exact hinv.2.2.2.mp hi
    · left
      have hi2 : s.foundIhdr = false := by simpa using hi
      rw [PngV1.readPngChunks, if_pos hsig]
      simp only [hm, hi2]
      simp
  · obtain ⟨s2, hm2⟩ := Option.isSome_iff_exists.mp
      (PngV2.parseLoopTotalV2 bytes bytes.length PngV2.initState (by simp [PngV2.initState]))
    refine ⟨⟨s2.chunks, s2.warnings⟩, ?_⟩
    rw [PngV2.readPngChunks, if_pos hsig]
    simp only [hm2]

/-- Witness for claim C5 on the well-formed file `pngC1`. -/
theorem claimC5_witness :
    pngC1.take 8 = PNG_SIGNATURE ∧
    ((PngV1.readPngChunks pngC1 = .error .missingIhdr ∨
      ∃ r, PngV1.readPngChunks pngC1 = .ok r ∧ ∃ c ∈ r.chunks, c.type = typeIHDR) ∧
     ∃ r2, PngV2.readPngChunks pngC1 = .ok r2) :=
  ⟨by decide, claimC5 pngC1 (by decide)⟩

namespace PngV2

/-- One-step characterization of the dashboard scan loop at a chunk whose
declared length is at or above 2^31: a warning is pushed and the scan stops
immediately; the chunk is not retained. -/
theorem parseLoop_large_break (bytes : List Nat) (fuel : Nat) (s : St)
    (h1 : s.index < bytes.length) (h2 : s.index + 8 ≤ bytes.length)
    (hL : 2147483648 ≤ readUint32 bytes s.index) :
    parseLoop bytes (fuel+1) s =
      some { s with warnings := s.warnings ++
        [.largeLength (readAscii bytes (s.index+4) 4) (readUint32 bytes s.index)] } := by
  simp only [parseLoop]
  rw [if_neg (by omega), if_neg (by omega), if_pos hL]

end PngV2

/-- Unfolding equation for `bigBytes` (the 2^31-element replicate is only
ever handled symbolically). -/
theorem bigBytes_eq : bigBytes = bigPrefix ++ List.replicate 2147483652 0 := rfl

/-- The length of the oversized-chunk buffer. -/
theorem bigBytes_length : bigBytes.length = 2147483668 := by
  rw [bigBytes_eq, List.length_append, List.length_replicate]
  decide

/-- The declared length read at offset 8 of `bigBytes` is exactly 2^31. -/
theorem bigBytes_u32 : uint32At bigBytes 8 = 2147483648 := by
  rw [uint32At, byteAt, byteAt, byteAt, byteAt, bigBytes_eq,
    List.getD_append _ _ _ _ (by decide), List.getD_append _ _ _ _ (by decide),
    List.getD_append _ _ _ _ (by decide), List.getD_append _ _ _ _ (by decide)]
  decide

/-- The type tag read at offset 12 of `bigBytes` is `"IHDR"`. -/
theorem bigBytes_type : asciiAt bigBytes 12 4 = typeIHDR := by
  rw [asciiAt, bigBytes_eq, List.drop_append_eq_append_drop]
  rw [show (12:Nat) - bigPrefix.length = 0 from rfl, List.drop_zero,
    List.take_append_eq_append_take]
  rw [show (4:Nat) - (bigPrefix.drop 12).length = 0 from rfl, List.take_zero,
    List.append_nil]
  decide

/-- `bigBytes` carries a valid PNG signature. -/
theorem bigBytes_sig : signatureOk bigBytes = true := by
  apply (signatureOk_eq_true_iff bigBytes).mpr
  rw [bigBytes_eq, List.take_append_eq_append_take]
  rw [show (8:Nat) - bigPrefix.length = 0 from rfl, List.take_zero, List.append_nil]
  decide

/-- Claim C6 (amended): at a chunk whose declared length is at or above 2^31,
the primary parser records a large-length warning but does not abort - when
the type tag is valid and the chunk still fits the buffer, the chunk is
retained and the scan continues at the next chunk boundary.  The dashboard
parser instead records its warning and *stops the scan immediately*, without
retaining the chunk, even when the chunk would fit. -/
theorem claimC6 :
    (∀ (bytes : List Nat) (fuel : Nat) (s : PngV1.St),
      s.index < bytes.length → s.index + 8 ≤ bytes.length →
      2147483648 ≤ uint32At bytes s.index →
      isChunkType (asciiAt bytes (s.index+4) 4) = true →
      s.index + 8 + uint32At bytes s.index + 4 ≤ bytes.length →
      ∃ s', PngV1.parseLoop bytes (fuel+1) s = PngV1.parseLoop bytes fuel s' ∧
        s'.index = s.index + 8 + uint32At bytes s.index + 4 ∧
        (∃ c, s'.chunks = s.chunks ++ [c] ∧ c.offset = s.index ∧
          c.length = uint32At bytes s.index) ∧
        PngV1.Warning.largeLength s.index (uint32At bytes s.index) ∈ s'.warnings) ∧
    (∀ (bytes : List Nat) (fuel : Nat) (s : PngV2.St),
      s.index < bytes.length → s.index + 8 ≤ bytes.length →
      2147483648 ≤ PngV2.readUint32 bytes s.index →
      PngV2.parseLoop bytes (fuel+1) s =
        some { s with warnings := s.warnings ++
          [.largeLength (PngV2.readAscii bytes (s.index+4) 4)
            (PngV2.readUint32 bytes s.index)] }) := by
  constructor
  · intro bytes fuel s h1 h2 hL ht hfit
    simp only [PngV1.parseLoop]
    rw [if_neg (by omega), if_neg (by omega), if_pos ht, if_neg (by omega)]
    refine ⟨_, rfl, ?_, ⟨_, rfl, rfl, rfl⟩, ?_⟩
    · rfl
    · dsimp only
      split <;> split <;> split <;> simp [List.mem_append, hL]
  · intro bytes fuel s h1 h2 hL
    exact PngV2.parseLoop_large_break bytes fuel s h1 h2 hL

/-- Witness for claim C6 on `bigBytes`: one loop step of the primary parser
at the oversized chunk retains it and continues. -/
theorem claimC6_witness :
    ∃ s', PngV1.parseLoop bigBytes 1 PngV1.initState = PngV1.parseLoop bigBytes 0 s' ∧
      s'.index = PngV1.initState.index + 8 + uint32At bigBytes PngV1.initState.index + 4 ∧
      (∃ c, s'.chunks = PngV1.initState.chunks ++ [c] ∧
        c.offset = PngV1.initState.index ∧
        c.length = uint32At bigBytes PngV1.initState.index) ∧
      PngV1.Warning.largeLength PngV1.initState.index
        (uint32At bigBytes PngV1.initState.index) ∈ s'.warnings := by
  refine claimC6.1 bigBytes 0 PngV1.initState ?_ ?_ ?_ ?_ ?_
  · show (8:Nat) < bigBytes.length
    rw [bigBytes_length]; omega
  · show (8:Nat) + 8 ≤ bigBytes.length
    rw [bigBytes_length]; omega
  · show 2147483648 ≤ uint32At bigBytes 8
    rw [bigBytes_u32]
  · show isChunkType (asciiAt bigBytes (8+4) 4) = true
    rw [show (8:Nat)+4 = 12 from rfl, bigBytes_type]
    decide
  · show (8:Nat) + 8 + uint32At bigBytes 8 + 4 ≤ bigBytes.length
    rw [bigBytes_u32, bigBytes_length]

/-- Claim C6 counterexample: on `bigBytes` the oversized chunk fits the
buffer exactly (`8 + 8 + 2^31 + 4 = length`), yet the dashboard parser stops
at it: the returned chunk list is empty (the chunk is not parsed or kept) and
the scan does not continue. -/
theorem claimC6_counterexample :
    2147483648 ≤ PngV2.readUint32 bigBytes 8 ∧
    8 + 8 + PngV2.readUint32 bigBytes 8 + 4 ≤ bigBytes.length ∧
    PngV2.readPngChunks bigBytes =
      .ok ⟨[], [PngV2.Warning.largeLength typeIHDR 2147483648]⟩ := by
  have hu : PngV2.readUint32 bigBytes 8 = 2147483648 := bigBytes_u32
  have ht : PngV2.readAscii bigBytes 12 4 = typeIHDR := bigBytes_type
  refine ⟨by rw [hu], by rw [hu, bigBytes_length], ?_⟩
  rw [PngV2.readPngChunks, if_pos bigBytes_sig,
    show bigBytes.length = 2147483667+1 from bigBytes_length,
    PngV2.parseLoop_large_break bigBytes 2147483667 PngV2.initState
      (by show (8:Nat) < bigBytes.length; rw [bigBytes_length]; omega)
      (by show (8:Nat) + 8 ≤ bigBytes.length; rw [bigBytes_length]; omega)
      (by show 2147483648 ≤ PngV2.readUint32 bigBytes 8; rw [hu])]
  rw [show PngV2.readAscii bigBytes (PngV2.initState.index + 4) 4 = typeIHDR from ht,
    show PngV2.readUint32 bigBytes PngV2.initState.index = 2147483648 from hu]
  rfl

/-- Appending bytes beyond the accessed position does not change a byte
access: reads stay within the original buffer. -/
theorem byteAt_append (bytes extra : List Nat) (off : Nat) (h : off < bytes.length) :
    byteAt (bytes ++ extra) off = byteAt bytes off :=
  List.getD_append bytes extra 0 off h

/-- Appending bytes beyond `off + len` does not change a string-slice read:
reads stay within the original buffer. -/
theorem asciiAt_append (bytes extra : List Nat) (off len : Nat)
    (h : off + len ≤ bytes.length) :
    asciiAt (bytes ++ extra) off len = asciiAt bytes off len := by
  rw [asciiAt, asciiAt, List.drop_append_eq_append_drop,
    Nat.sub_eq_zero_of_le (by omega), List.drop_zero, List.take_append_eq_append_take,
    Nat.sub_eq_zero_of_le (by simp; omega), List.take_zero, List.append_nil]

/-- Claim C8 (amended, restricted to the primary implementation's readers):
each bounds-checked binary reader (big-endian u16, big-endian u32,
fixed-length ASCII/Latin-1, fixed-length UTF-8) succeeds exactly when
`offset + size ≤ buffer.length` (for UTF-8: fails with the out-of-bounds
error exactly when `offset + size > buffer.length`), and within bounds its
result only depends on the bytes up to `offset + size` - no reader ever
dereferences a position past the end of the buffer.  (The dashboard
variant's readers, by contrast, perform no bounds check - see the
counterexample.) -/
theorem claimC8 :
    (∀ (bytes : List Nat) (off : Nat),
      (PngV1.readUint16 bytes off).isOk = true ↔ off + 2 ≤ bytes.length) ∧
    (∀ (bytes extra : List Nat) (off : Nat), off + 2 ≤ bytes.length →
      PngV1.readUint16 (bytes ++ extra) off = PngV1.readUint16 bytes off) ∧
    (∀ (bytes : List Nat) (off : Nat),
      (PngV1.readUint32 bytes off).isOk = true ↔ off + 4 ≤ bytes.length) ∧
    (∀ (bytes extra : List Nat) (off : Nat), off + 4 ≤ bytes.length →
      PngV1.readUint32 (bytes ++ extra) off = PngV1.readUint32 bytes off) ∧
    (∀ (bytes : List Nat) (off len : Nat),
      (PngV1.readAscii bytes off len).isOk = true ↔ off + len ≤ bytes.length) ∧
    (∀ (bytes extra : List Nat) (off len : Nat), off + len ≤ bytes.length →
      PngV1.readAscii (bytes ++ extra) off len = PngV1.readAscii bytes off len) ∧
    (∀ (bytes : List Nat) (off len : Nat),
      PngV1.readUtf8 bytes off len = .error "Read past end of buffer" ↔
        bytes.length < off + len) ∧
    (∀ (bytes extra : List Nat) (off len : Nat), off + len ≤ bytes.length →
      PngV1.readUtf8 (bytes ++ extra) off len = PngV1.readUtf8 bytes off len) := by
  refine ⟨?_, ?_, ?_, ?_, ?_, ?_, ?_, ?_⟩
  · intro bytes off
    rw [PngV1.readUint16]
    split <;> simp [Except.isOk, Except.toBool] <;> omega
  · intro bytes extra off h
    rw [PngV1.readUint16, PngV1.readUint16, if_neg (by simp; omega),
      if_neg (by omega), uint16At, uint16At,
      byteAt_append _ _ _ (by omega), byteAt_append _ _ _ (by omega)]
  · intro bytes off
    rw [PngV1.readUint32]
    split <;> simp [Except.isOk, Except.toBool] <;> omega
  · intro bytes extra off h
    rw [PngV1.readUint32, PngV1.readUint32, if_neg (by simp; omega),
      if_neg (by omega), uint32At, uint32At,
      byteAt_append _ _ _ (by omega), byteAt_append _ _ _ (by omega),
      byteAt_append _ _ _ (by omega), byteAt_append _ _ _ (by omega)]
  · intro bytes off len
    rw [PngV1.readAscii]
    split <;> simp [Except.isOk, Except.toBool] <;> omega
  · intro bytes extra off len h
    rw [PngV1.readAscii, PngV1.readAscii, if_neg (by simp; omega),
      if_neg (by omega), asciiAt_append _ _ _ _ h]
  · intro bytes off len
    rw [PngV1.readUtf8]
    split
    · next hlt => simp [hlt]
    · next hlt => split <;> simp <;> omega
  · intro bytes extra off len h
    rw [PngV1.readUtf8, PngV1.readUtf8,
      if_neg (show ¬((bytes ++ extra).length < off + len) by simp; omega),
      if_neg (show ¬(bytes.length < off + len) by omega),
      asciiAt_append bytes extra off len h]

/-- Witness for claim C8: the u16 reader succeeds inside a two-byte buffer
and is unchanged by appending a byte beyond the read. -/
theorem claimC8_witness :
    ((PngV1.readUint16 [1, 2] 0).isOk = true ↔ 0 + 2 ≤ ([1, 2] : List Nat).length) ∧
    PngV1.readUint16 ([1, 2] ++ [3]) 0 = PngV1.readUint16 [1, 2] 0 :=
  ⟨claimC8.1 [1, 2] 0, claimC8.2.1 [1, 2] [3] 0 (by decide)⟩

/-- `pure >>= k` collapses in the `Except` monad. -/
theorem exceptPureBind {ε α β : Type} (a : α) (k : α → Except ε β) :
    (pure a : Except ε α) >>= k = k a := rfl

/-- `ok >>= k` collapses in the `Except` monad. -/
theorem exceptOkBind {ε α β : Type} (a : α) (k : α → Except ε β) :
    (Except.ok a : Except ε α) >>= k = k a := rfl

/-- A thrown error short-circuits the rest of a `do` block. -/
theorem exceptThrowBind {ε α β : Type} (e : ε) (k : α → Except ε β) :
    (throw e : Except ε α) >>= k = .error e := rfl

/-- A thrown error short-circuits a trailing `map`. -/
theorem exceptMapThrow {ε α β : Type} (f : α → β) (e : ε) :
    f <$> (throw e : Except ε α) = .error e := rfl

/-- Within bounds, the checked u32 reader returns the raw big-endian value. -/
theorem readUint32_in (bytes : List Nat) (off : Nat) (h : off + 4 ≤ bytes.length) :
    PngV1.readUint32 bytes off = .ok (uint32At bytes off) := by
  rw [PngV1.readUint32, if_neg (by omega)]

/-- Within bounds, the checked string reader returns the raw byte slice. -/
theorem readLatin1_in (bytes : List Nat) (off len : Nat) (h : off + len ≤ bytes.length) :
    PngV1.readLatin1 bytes off len = .ok (asciiAt bytes off len) := by
  rw [PngV1.readLatin1, PngV1.readAscii, if_neg (by omega)]

/-- The code's bit-depth/color-type table admits exactly the five pairings
the specification lists. -/
theorem isValid_iff (bitDepth colorType : Nat) :
    PngV1.summarizeChunk.isValidBitDepthColorType bitDepth colorType = true ↔
      specValidPairing bitDepth colorType := by
  rw [PngV1.summarizeChunk.isValidBitDepthColorType, specValidPairing]
  split_ifs with h0 h2 h3 h4 h6 <;> simp_all

set_option maxHeartbeats 1000000 in
/-- Claim C7: a chunk record with type `IHDR` (and `data.length = length`, as
the parser guarantees) is successfully summarized if and only if its payload
is exactly 13 bytes with non-zero width and height, a valid bit-depth and
color-type pairing, zero compression and filter methods, and interlace method
0 or 1; on success the summary reports exactly those seven fields (plus the
color-type label), and any violation yields a descriptive error. -/
theorem claimC7 (c : Chunk) (hty : c.type = typeIHDR) (hlen : c.data.length = c.length) :
    ((∃ s, PngV1.summarizeChunk c = .ok s) ↔ specIhdrValid c.data) ∧
    (specIhdrValid c.data →
      PngV1.summarizeChunk c = .ok (.ihdr (uint32At c.data 0) (uint32At c.data 4)
        (byteAt c.data 8) (byteAt c.data 9) (byteAt c.data 10) (byteAt c.data 11)
        (byteAt c.data 12) (ihdrColorLabel (byteAt c.data 9)))) := by
  by_cases h13 : c.length = 13
  · have hr0 := readUint32_in c.data 0 (by omega)
    have hr4 := readUint32_in c.data 4 (by omega)
    by_cases hw0 : uint32At c.data 0 = 0 ∨ uint32At c.data 4 = 0
    · have hsum : PngV1.summarizeChunk c = .error "Zero width or height" := by
        simp only [PngV1.summarizeChunk, hty, beq_self_eq_true, if_true, h13, hr0,
          exceptOkBind]
        norm_num [hw0, hr4, exceptOkBind, exceptThrowBind, exceptMapThrow]
      rw [hsum]
      constructor
      · constructor
        · rintro ⟨s, hs⟩; cases hs
        · intro hv
          exact absurd hw0 (by push_neg; exact ⟨hv.2.1, hv.2.2.1⟩)
      · intro hv
        exact absurd hw0 (by push_neg; exact ⟨hv.2.1, hv.2.2.1⟩)
    · by_cases hpv : PngV1.summarizeChunk.isValidBitDepthColorType (byteAt c.data 8)
          (byteAt c.data 9) = true
      · by_cases hcomp : byteAt c.data 10 = 0
        · by_cases hfil : byteAt c.data 11 = 0
          · by_cases hint : byteAt c.data 12 = 0 ∨ byteAt c.data 12 = 1
            · have hint2 : ¬(¬byteAt c.data 12 = 0 ∧ ¬byteAt c.data 12 = 1) := by tauto
              have hsum : PngV1.summarizeChunk c =
                  .ok (.ihdr (uint32At c.data 0) (uint32At c.data 4) (byteAt c.data 8)
                    (byteAt c.data 9) (byteAt c.data 10) (byteAt c.data 11)
                    (byteAt c.data 12) (ihdrColorLabel (byteAt c.data 9))) := by
                simp only [PngV1.summarizeChunk, hty, beq_self_eq_true, if_true, h13, hr0,
                  exceptOkBind, ihdrColorLabel]
                norm_num [hw0, hpv, hcomp, hfil, hint2, hr4, exceptOkBind]
                rfl
              rw [hsum]
              refine ⟨⟨fun _ => ?_, fun _ => ⟨_, rfl⟩⟩, fun _ => rfl⟩
              exact ⟨by omega, (not_or.mp hw0).1, (not_or.mp hw0).2,
                (isValid_iff _ _).mp hpv, hcomp, hfil, hint⟩
            · have hint2 : ¬byteAt c.data 12 = 0 ∧ ¬byteAt c.data 12 = 1 := by tauto
              have hsum : PngV1.summarizeChunk c = .error "Invalid interlace method" := by
                simp only [PngV1.summarizeChunk, hty, beq_self_eq_true, if_true, h13, hr0,
                  exceptOkBind]
                norm_num [hw0, hpv, hcomp, hfil, hint2, hr4, exceptOkBind,
                  exceptThrowBind, exceptMapThrow]
              rw [hsum]
              constructor
              · constructor
                · rintro ⟨s, hs⟩; cases hs
                · intro hv; exact absurd hv.2.2.2.2.2.2 hint
              · intro hv; exact absurd hv.2.2.2.2.2.2 hint
          · have hsum : PngV1.summarizeChunk c = .error "Invalid filter method" := by
              simp only [PngV1.summarizeChunk, hty, beq_self_eq_true, if_true, h13, hr0,
                exceptOkBind]
              norm_num [hw0, hpv, hcomp, hfil, hr4, exceptOkBind,
                exceptThrowBind, exceptMapThrow]
            rw [hsum]
            constructor
            · constructor
              · rintro ⟨s, hs⟩; cases hs
              · intro hv; exact absurd hv.2.2.2.2.2.1 hfil
            · intro hv; exact absurd hv.2.2.2.2.2.1 hfil
        · have hsum : PngV1.summarizeChunk c = .error "Invalid compression method" := by
            simp only [PngV1.summarizeChunk, hty, beq_self_eq_true, if_true, h13, hr0,
              exceptOkBind]
            norm_num [hw0, hpv, hcomp, hr4, exceptOkBind, exceptThrowBind, exceptMapThrow]
          rw [hsum]
          constructor
          · constructor
            · rintro ⟨s, hs⟩; cases hs
            · intro hv; exact absurd hv.2.2.2.2.1 hcomp
          · intro hv; exact absurd hv.2.2.2.2.1 hcomp
      · have hpv2 : PngV1.summarizeChunk.isValidBitDepthColorType (byteAt c.data 8)
            (byteAt c.data 9) = false := by simpa using hpv
        have hsum : PngV1.summarizeChunk c =
            .error "Invalid bit depth/color type combination" := by
          simp only [PngV1.summarizeChunk, hty, beq_self_eq_true, if_true, h13, hr0,
            exceptOkBind]
          norm_num [hw0, hpv2, hr4, exceptOkBind, exceptThrowBind, exceptMapThrow]
        rw [hsum]
        constructor
        · constructor
          · rintro ⟨s, hs⟩; cases hs
          · intro hv; exact absurd ((isValid_iff _ _).mpr hv.2.2.2.1) hpv
        · intro hv; exact absurd ((isValid_iff _ _).mpr hv.2.2.2.1) hpv
  · have hsum : PngV1.summarizeChunk c = .error "Invalid IHDR length" := by
      simp only [PngV1.summarizeChunk, hty, beq_self_eq_true, if_true]
      norm_num [h13, exceptThrowBind, exceptMapThrow]
    rw [hsum]
    constructor
    · constructor
      · rintro ⟨s, hs⟩; cases hs
      · intro hv
        exact absurd (show c.length = 13 by have h := hv.1; omega) h13
    · intro hv
      exact absurd (show c.length = 13 by have h := hv.1; omega) h13

/-- Witness for claim C7 on the valid 1x1 grayscale header chunk. -/
theorem claimC7_witness :
    specIhdrValid ihdrChunkW.data ∧ ∃ s, PngV1.summarizeChunk ihdrChunkW = .ok s :=
  ⟨by decide, ((claimC7 ihdrChunkW rfl rfl).1).mpr (by decide)⟩

/-- A successful `indexOf` returns the position of a matching byte inside the
buffer. -/
theorem jsIndexOf_some (l : List Nat) (v k : Nat) (h : jsIndexOf l v 0 = some k) :
    k < l.length ∧ l.getD k 0 = v := by
  rw [jsIndexOf, List.drop_zero] at h
  obtain ⟨i, hi, rfl⟩ := Option.map_eq_some'.mp h
  obtain ⟨hlt, hp, -⟩ := List.findIdx?_eq_some_iff_getElem.mp hi
  exact ⟨by omega, by rw [List.getD_eq_getElem _ _ (by omega)]; simpa using hp⟩

set_option maxHeartbeats 1000000 in
/-- Claim C9 (amended - the code does not check printability of the name):
a suggested-palette chunk record is successfully summarized if and only if
its payload begins with a null-terminated name of 1 to 79 bytes, the byte
after the null is a sample depth of 8 or 16, and the remaining length
(payload length minus name length minus 2) is a nonnegative multiple of the
per-entry size (6 for depth 8, 10 for depth 16); the reported entry count is
that remaining length divided by the entry size. -/
theorem claimC9 (c : Chunk) (hty : c.type = typeSPLT) (hlen : c.data.length = c.length) :
    ((∃ s, PngV1.summarizeChunk c = .ok s) ↔ specSpltShape c.data) ∧
    (∀ k, jsIndexOf c.data 0 0 = some k → specSpltShape c.data →
      PngV1.summarizeChunk c = .ok (.splt (asciiAt c.data 0 k) (byteAt c.data (k+1))
        ((c.data.length - (k + 2)) / (if byteAt c.data (k+1) = 8 then 6 else 10)))) := by
  cases hidx : jsIndexOf c.data 0 0 with
  | none =>
    have hsum : PngV1.summarizeChunk c = .error "Invalid palette name" := by
      simp +decide only [PngV1.summarizeChunk, hty]
      norm_num [hidx, exceptThrowBind, exceptMapThrow]
      rfl
    refine ⟨⟨?_, ?_⟩, ?_⟩
    · rintro ⟨s, hs⟩
      rw [hsum] at hs
      cases hs
    · rintro ⟨k, hk, -⟩
      rw [hidx] at hk
      cases hk
    · intro k hk
      cases hk
  | some nul =>
    have hkpos := jsIndexOf_some c.data 0 nul hidx
    by_cases h79 : 79 < nul ∨ nul = 0
    · have hsum : PngV1.summarizeChunk c = .error "Invalid palette name" := by
        simp +decide only [PngV1.summarizeChunk, hty]
        norm_num [hidx, h79, exceptThrowBind, exceptMapThrow]
      refine ⟨⟨?_, ?_⟩, ?_⟩
      · rintro ⟨s, hs⟩
        rw [hsum] at hs
        cases hs
      · rintro ⟨k, hk, hk1, hk79, -⟩
        rw [hidx] at hk
        cases hk
        rcases h79 with h | h <;> omega
      · intro k hk hv
        cases hk
        obtain ⟨k2, hk2, hk21, hk279, -⟩ := hv
        rw [hidx] at hk2
        cases hk2
        rcases h79 with h | h <;> omega
    · have hname := readLatin1_in c.data 0 nul (by omega)
      by_cases h2 : c.length < nul + 2
      · have hsum : PngV1.summarizeChunk c = .error "Data too short" := by
          simp +decide only [PngV1.summarizeChunk, hty]
          norm_num [hidx, h79, h2, hname, exceptOkBind, exceptThrowBind, exceptMapThrow]
        refine ⟨⟨?_, ?_⟩, ?_⟩
        · rintro ⟨s, hs⟩
          rw [hsum] at hs
          cases hs
        · rintro ⟨k, hk, -, -, hkfit, -⟩
          rw [hidx] at hk
          cases hk
          omega
        · intro k hk hv
          cases hk
          obtain ⟨k2, hk2, -, -, hkfit, -⟩ := hv
          rw [hidx] at hk2
          cases hk2
          omega
      · by_cases hdep : byteAt c.data (nul+1) = 8 ∨ byteAt c.data (nul+1) = 16
        · by_cases hmod : (c.length - (nul + 1 + 1)) %
              (if byteAt c.data (nul+1) = 8 then 6 else 10) = 0
          · have hdep2 : ¬(byteAt c.data (nul+1) != 8 && byteAt c.data (nul+1) != 16)
                = true := by
              rcases hdep with h | h <;> simp [h]
            have hsum : PngV1.summarizeChunk c =
                .ok (.splt (asciiAt c.data 0 nul) (byteAt c.data (nul+1))
                  ((c.length - (nul + 1 + 1)) /
                    (if byteAt c.data (nul+1) = 8 then 6 else 10))) := by
              simp +decide only [PngV1.summarizeChunk, hty]
              norm_num [hidx, h79, h2, hname, hdep2, exceptOkBind, exceptThrowBind,
                exceptMapThrow]
              rw [if_pos hmod]
              rfl
            refine ⟨⟨fun _ => ?_, fun _ => ⟨_, hsum⟩⟩, ?_⟩
            · exact ⟨nul, hidx, by omega, by omega, by omega, hdep, by
                rw [hlen]
                exact hmod⟩
            · intro k hk hv
              cases hk
              rw [hsum, hlen]
          · have hdep2 : ¬(byteAt c.data (nul+1) != 8 && byteAt c.data (nul+1) != 16)
                = true := by
              rcases hdep with h | h <;> simp [h]
            have hsum : PngV1.summarizeChunk c = .error "Invalid data length" := by
              simp +decide only [PngV1.summarizeChunk, hty]
              norm_num [hidx, h79, h2, hname, hdep2, exceptOkBind, exceptThrowBind,
                exceptMapThrow]
              exact fun h => absurd h hmod
            refine ⟨⟨?_, ?_⟩, ?_⟩
            · rintro ⟨s, hs⟩
              rw [hsum] at hs
              cases hs
            · rintro ⟨k, hk, -, -, -, -, hkmod⟩
              rw [hidx] at hk
              cases hk
              rw [hlen] at hkmod
              exact absurd hkmod hmod
            · intro k hk hv
              cases hk
              obtain ⟨k2, hk2, -, -, -, -, hkmod⟩ := hv
              rw [hidx] at hk2
              cases hk2
              rw [hlen] at hkmod
              exact absurd hkmod hmod
        · have hdep2 : (byteAt c.data (nul+1) != 8 && byteAt c.data (nul+1) != 16)
              = true := by
            push_neg at hdep
            simp [hdep.1, hdep.2]
          have hsum : PngV1.summarizeChunk c = .error "Invalid sample depth" := by
            simp +decide only [PngV1.summarizeChunk, hty]
            norm_num [hidx, h79, h2, hname, hdep2, exceptOkBind, exceptThrowBind,
              exceptMapThrow]
          refine ⟨⟨?_, ?_⟩, ?_⟩
          · rintro ⟨s, hs⟩
            rw [hsum] at hs
            cases hs
          · rintro ⟨k, hk, -, -, -, hkdep, -⟩
            rw [hidx] at hk
            cases hk
            exact absurd hkdep hdep
          · intro k hk hv
            cases hk
            obtain ⟨k2, hk2, -, -, -, hkdep, -⟩ := hv
            rw [hidx] at hk2
            cases hk2
            exact absurd hkdep hdep

/-- Witness for claim C9 on a suggested-palette chunk with printable name
`"A"`, depth 8 and zero entries. -/
theorem claimC9_witness :
    ∃ s, PngV1.summarizeChunk spltChunkW = .ok s :=
  ((claimC9 spltChunkW rfl rfl).1).mpr
    ⟨1, by decide, by decide, by decide, by decide, by decide, by decide⟩
